import Mathlib

/-!
Verification of the throughput-accounting core of the
`measure-tps-by-receive-request` webhook server (Go, `main.go`).

The embedding models time as a natural number of nanoseconds (the clock
value read by `time.Now()` at each call).  The Go zero value `time.Time{}`
is modelled as the timestamp `0`.  The `int64` request counter is modelled
as `Int`, float64 seconds and TPS values as exact rationals `ℚ`
(`duration.Seconds()` divides the nanosecond difference by 10^9).
The registry map `map[string]*Webhook` is modelled as an association list
with Go map semantics (lookup, upsert, delete) made explicit.
-/

set_option autoImplicit false

namespace TPS

/-- The `TPSCalculator` struct of `main.go` (mutex elided: all operations
are modelled as atomic state transformers, which is what the per-calculator
lock guarantees for sequential histories). -/
structure TPSCalculator where
  requestCount : Int
  startTime : Nat
  lastTime : Nat
  isActive : Bool
  deriving DecidableEq, Repr

/-- `NewTPSCalculator` returns the zero-valued struct. -/
def NewTPSCalculator : TPSCalculator :=
  { requestCount := 0, startTime := 0, lastTime := 0, isActive := false }

/-- `(*TPSCalculator).RecordRequest`: on the first event since activation
sets `startTime` and activates; always increments the counter and stamps
`lastTime` with the current clock value `now`. -/
def TPSCalculator.RecordRequest (t : TPSCalculator) (now : Nat) : TPSCalculator :=
  let t1 := if t.isActive = false then { t with startTime := now, isActive := true } else t
  { t1 with requestCount := t1.requestCount + 1, lastTime := now }

/-- `(*TPSCalculator).Reset`: zero the counter, clear both timestamps,
deactivate. -/
def TPSCalculator.Reset (_t : TPSCalculator) : TPSCalculator :=
  { requestCount := 0, startTime := 0, lastTime := 0, isActive := false }

/-- The result map of `(*TPSCalculator).GetMetrics`.  `start_time` and
`end_time` are `none` when the Go code returns JSON `nil`, and carry the
raw timestamp when the Go code returns the RFC3339-formatted time. -/
structure Metrics where
  total_requests : Int
  duration_seconds : ℚ
  tps : ℚ
  start_time : Option Nat
  end_time : Option Nat
  deriving DecidableEq, Repr

/-- `(*TPSCalculator).GetMetrics`: inactive calculators report all-zero
metrics with absent timestamps; active ones report the counter, the
window span in seconds, and `tps = count / duration` guarded by
`duration > 0` (the `var tps float64` default of `0` is kept otherwise). -/
def TPSCalculator.GetMetrics (t : TPSCalculator) : Metrics :=
  if t.isActive = false then
    { total_requests := 0, duration_seconds := 0, tps := 0,
      start_time := none, end_time := none }
  else
    let duration : ℚ := ((t.lastTime : ℚ) - (t.startTime : ℚ)) / 1000000000
    let tps : ℚ := if duration > 0 then (t.requestCount : ℚ) / duration else 0
    { total_requests := t.requestCount, duration_seconds := duration, tps := tps,
      start_time := some t.startTime, end_time := some t.lastTime }

/-- A sequence of sequential `RecordRequest` calls, one clock reading per
call. -/
def recordSeq (t : TPSCalculator) (times : List Nat) : TPSCalculator :=
  times.foldl TPSCalculator.RecordRequest t


/-- The two mutating calculator operations, as events of a trace. -/
inductive CalcEv where
  | record
  | reset
  deriving DecidableEq, Repr

/-- One trace step: the event paired with the clock value read when it
runs (`Reset` reads no clock; the value is carried only so that a single
non-decreasing time line covers the whole trace). -/
def stepEv (t : TPSCalculator) (e : Nat × CalcEv) : TPSCalculator :=
  match e.2 with
  | .record => t.RecordRequest e.1
  | .reset => t.Reset

/-- Run a trace of calculator events from a given state. -/
def runEvents (t : TPSCalculator) (es : List (Nat × CalcEv)) : TPSCalculator :=
  es.foldl stepEv t

/-- The clock values of a trace are non-decreasing. -/
def timesMono : List Nat → Bool
  | a :: b :: rest => Nat.ble a b && timesMono (b :: rest)
  | _ => true

/-- The accumulator data-model invariant of the spec (§3): inactive means
all-zero, active means `startTime ≤ lastTime` and at least one event. -/
def Inv (t : TPSCalculator) : Prop :=
  (t.isActive = false → t.requestCount = 0 ∧ t.startTime = 0 ∧ t.lastTime = 0) ∧
  (t.isActive = true → t.startTime ≤ t.lastTime ∧ 1 ≤ t.requestCount)

instance (t : TPSCalculator) : Decidable (Inv t) := by
  unfold Inv; infer_instance

/-- The `WebhookConfig` struct.  `headers` is `none` when the Go map is
`nil`, `some` a key-value list otherwise (`statusCode`, `timeout` are Go
`int`). -/
structure WebhookConfig where
  statusCode : Int
  contentType : String
  responseBody : String
  timeout : Int
  headers : Option (List (String × String))
  enableLogging : Bool
  deriving DecidableEq, Repr

/-- The `Webhook` struct; `createdAt` and `lastRequest` carry the clock
value in nanoseconds, `lastRequest = none` until the first matched
request. -/
structure Webhook where
  id : String
  name : String
  path : String
  config : WebhookConfig
  calculator : TPSCalculator
  createdAt : Nat
  lastRequest : Option Nat
  deriving DecidableEq, Repr

/-- The `webhooks map[string]*Webhook` field of `WebhookServer`, as an
association list whose keys are unique in any state the server builds. -/
abbrev Registry := List (String × Webhook)

/-- `(*WebhookServer).getWebhook`: map lookup under the read lock. -/
def getWebhook (ws : Registry) (id : String) : Option Webhook :=
  match ws with
  | [] => none
  | (k, w) :: rest => if k = id then some w else getWebhook rest id

/-- Go map assignment `ws.webhooks[id] = w`: replace the binding if the
key is present, append otherwise. -/
def insertW (ws : Registry) (id : String) (w : Webhook) : Registry :=
  match ws with
  | [] => [(id, w)]
  | (k, v) :: rest => if k = id then (k, w) :: rest else (k, v) :: insertW rest id w

/-- In-place mutation of the `*Webhook` stored under `id` (pointer write
in Go): rewrite every binding with that key. -/
def updateEntry (ws : Registry) (id : String) (f : Webhook → Webhook) : Registry :=
  ws.map (fun p => if p.1 = id then (p.1, f p.2) else p)

/-- Go built-in `delete(ws.webhooks, id)`: remove the key. -/
def eraseKey (ws : Registry) (id : String) : Registry :=
  match ws with
  | [] => []
  | (k, v) :: rest => if k = id then eraseKey rest id else (k, v) :: eraseKey rest id

/-- The identifiers of the built-in webhooks that `deleteWebhook` and the
update handlers treat as protected. -/
def protectedId (id : String) : Prop :=
  id = "default" ∨ id = "fast" ∨ id = "slow"

instance (id : String) : Decidable (protectedId id) := by
  unfold protectedId; infer_instance

/-- `(*WebhookServer).deleteWebhook`: the protection check runs first and
returns `false` unconditionally for the three built-in ids; otherwise the
entry is removed iff present. -/
def deleteWebhook (ws : Registry) (id : String) : Registry × Bool :=
  if protectedId id then (ws, false)
  else
    match getWebhook ws id with
    | some _ => (eraseKey ws id, true)
    | none => (ws, false)

/-- Path normalization inside `createWebhook` and the update handlers:
`strings.HasPrefix(path, "/")` — since the pattern is the single character
`/`, this is exactly a first-character test — and prepend `/` when it is
missing. -/
def normalizePath (p : String) : String :=
  if p.data.head? = some '/' then p else "/" ++ p

/-- `(*WebhookServer).createWebhook` after ID generation: the fresh
8-character id is passed in as `id` (the `uuid.New()` draw), `now` is the
clock.  An empty path becomes `/w/{id}`; a supplied path is normalized.
The webhook is unconditionally inserted — there is no duplicate-path
check in the source. -/
def createWebhook (ws : Registry) (id name path : String)
    (config : WebhookConfig) (now : Nat) : Registry × Webhook :=
  let finalPath := if path = "" then "/w/" ++ id else normalizePath path
  let w : Webhook :=
    { id := id, name := name, path := finalPath, config := config,
      calculator := NewTPSCalculator, createdAt := now, lastRequest := none }
  (insertW ws id w, w)

/-- The per-request mutation of `handleWebhookRequest`: record the event
on the calculator, then stamp `lastRequest`. -/
def touchWebhook (w : Webhook) (now : Nat) : Webhook :=
  { w with calculator := w.calculator.RecordRequest now, lastRequest := some now }

/-- `(*WebhookServer).handleWebhookRequest` (the registry-visible part):
unresolved ids answer not-found (`none`) and change nothing; a resolved id
has its calculator and `lastRequest` updated and its current config is
returned for the transport layer to shape the response. -/
def handleWebhookRequest (ws : Registry) (id : String) (now : Nat) :
    Registry × Option WebhookConfig :=
  match getWebhook ws id with
  | none => (ws, none)
  | some w => (updateEntry ws id (fun v => touchWebhook v now), some w.config)

/-- Go map write `m[k] = v` on a header list: replace the first binding
or append. -/
def upsertKV (l : List (String × String)) (k v : String) : List (String × String) :=
  match l with
  | [] => [(k, v)]
  | (a, b) :: rest => if a = k then (a, v) :: rest else (a, b) :: upsertKV rest k v

/-- The `for key, value := range upd { m[key] = value }` header merge of
both update handlers. -/
def upsertAll (l hs : List (String × String)) : List (String × String) :=
  hs.foldl (fun acc p => upsertKV acc p.1 p.2) l

/-- The decoded body of `PUT /api/webhooks/:id` (plain struct: absent JSON
fields decode to Go zero values; an absent headers map decodes to `nil`,
i.e.\ `none`). -/
structure PutRequest where
  name : String
  path : String
  config : WebhookConfig
  deriving DecidableEq, Repr

/-- The config merge of the PUT handler (lines 1080-1101): zero-value
sentinels for `statusCode`/`contentType`/`responseBody`, `timeout`
overwritten whenever the supplied value is `>= 0`, headers upserted when
the supplied map is non-nil, and `enableLogging` overwritten
unconditionally. -/
def putMergeConfig (old u : WebhookConfig) : WebhookConfig :=
  { statusCode := if u.statusCode ≠ 0 then u.statusCode else old.statusCode,
    contentType := if u.contentType ≠ "" then u.contentType else old.contentType,
    responseBody := if u.responseBody ≠ "" then u.responseBody else old.responseBody,
    timeout := if 0 ≤ u.timeout then u.timeout else old.timeout,
    headers :=
      match u.headers with
      | some hs => some (upsertAll (old.headers.getD []) hs)
      | none => old.headers,
    enableLogging := u.enableLogging }

/-- Outcome of the PUT/PATCH handlers: `ok` carries the webhook echoed
with status 200; `notFound` is the 404 branch.  The handlers have no
other error outcome. -/
inductive UpdResult where
  | ok (w : Webhook)
  | notFound
  deriving DecidableEq, Repr

/-- `true` when the handler answered an error status (404). -/
def updIsError : UpdResult → Bool
  | .ok _ => false
  | .notFound => true

/-- The path of the webhook echoed by a successful update. -/
def updResultPath : UpdResult → Option String
  | .ok w => some w.path
  | .notFound => none

/-- The `PUT /api/webhooks/:id` handler after JSON decoding: 404 when the
id does not resolve; otherwise name (non-empty sentinel), path (non-empty
sentinel, silently skipped for the protected ids), and config merge are
applied to the stored webhook, which is echoed with status 200. -/
def putWebhook (ws : Registry) (id : String) (req : PutRequest) :
    Registry × UpdResult :=
  match getWebhook ws id with
  | none => (ws, .notFound)
  | some w =>
      let w1 := if req.name ≠ "" then { w with name := req.name } else w
      let w2 :=
        if req.path ≠ "" ∧ ¬ protectedId id then
          { w1 with path := normalizePath req.path }
        else w1
      let w3 := { w2 with config := putMergeConfig w2.config req.config }
      (updateEntry ws id (fun _ => w3), .ok w3)

/-- The decoded config object of `PATCH /api/webhooks/:id`: every scalar
field is a pointer (`none` = absent), headers a nil-able map. -/
structure ConfigPatch where
  statusCode : Option Int
  contentType : Option String
  responseBody : Option String
  timeout : Option Int
  headers : Option (List (String × String))
  enableLogging : Option Bool
  deriving DecidableEq, Repr

/-- The decoded body of `PATCH /api/webhooks/:id`. -/
structure PatchRequest where
  name : Option String
  path : Option String
  config : Option ConfigPatch
  deriving DecidableEq, Repr

/-- The config merge of the PATCH handler (lines 1165-1190): each field
is overwritten exactly when its pointer is non-nil; headers are upserted
when the supplied map is non-nil. -/
def patchMergeConfig (old : WebhookConfig) (p : ConfigPatch) : WebhookConfig :=
  { statusCode := match p.statusCode with | some v => v | none => old.statusCode,
    contentType := match p.contentType with | some v => v | none => old.contentType,
    responseBody := match p.responseBody with | some v => v | none => old.responseBody,
    timeout := match p.timeout with | some v => v | none => old.timeout,
    headers :=
      match p.headers with
      | some hs => some (upsertAll (old.headers.getD []) hs)
      | none => old.headers,
    enableLogging := match p.enableLogging with | some v => v | none => old.enableLogging }

/-- The `PATCH /api/webhooks/:id` handler after JSON decoding: 404 when
the id does not resolve; otherwise name and path pointers are applied
(path silently skipped for the protected ids) and the config patch is
merged field by field; the webhook is echoed with status 200. -/
def patchWebhook (ws : Registry) (id : String) (req : PatchRequest) :
    Registry × UpdResult :=
  match getWebhook ws id with
  | none => (ws, .notFound)
  | some w =>
      let w1 := match req.name with | some n => { w with name := n } | none => w
      let w2 :=
        match req.path with
        | some p =>
            if ¬ protectedId id then { w1 with path := normalizePath p } else w1
        | none => w1
      let w3 :=
        match req.config with
        | some cp => { w2 with config := patchMergeConfig w2.config cp }
        | none => w2
      (updateEntry ws id (fun _ => w3), .ok w3)

/-! Concrete states used to exercise the claims on explicit inputs. -/

/-- An active calculator whose whole burst landed on one clock tick. -/
def calcBurst : TPSCalculator :=
  { requestCount := 5, startTime := 100, lastTime := 100, isActive := true }

/-- An active calculator with a two-second window and four events. -/
def calcSpread : TPSCalculator :=
  { requestCount := 4, startTime := 0, lastTime := 2000000000, isActive := true }

/-- A fully populated stored config. -/
def cfgA : WebhookConfig :=
  { statusCode := 200, contentType := "application/json",
    responseBody := "Request received", timeout := 500,
    headers := some [("X-Custom", "v1")], enableLogging := true }

/-- A PUT config body that supplied only `status_code`; every other field
holds the Go zero value produced by JSON decoding of an absent field. -/
def putOnlyStatusCfg : WebhookConfig :=
  { statusCode := 201, contentType := "", responseBody := "",
    timeout := 0, headers := none, enableLogging := false }

/-- A PUT config body with every field absent (all zero values). -/
def putZeroCfg : WebhookConfig :=
  { statusCode := 0, contentType := "", responseBody := "",
    timeout := 0, headers := none, enableLogging := false }

/-- A PATCH config body that supplied only `status_code`. -/
def patchOnlyStatus : ConfigPatch :=
  { statusCode := some 201, contentType := none, responseBody := none,
    timeout := none, headers := none, enableLogging := none }

/-- A PUT body requesting only a path change. -/
def putPathChange : PutRequest :=
  { name := "", path := "/newpath", config := putZeroCfg }

/-- A PATCH body requesting only a path change. -/
def patchPathChange : PatchRequest :=
  { name := none, path := some "/newpath", config := none }

/-- The built-in `default` webhook as loaded at startup. -/
def whDefault : Webhook :=
  { id := "default", name := "Default Webhook", path := "/webhook",
    config := cfgA, calculator := NewTPSCalculator,
    createdAt := 0, lastRequest := none }

/-- A user-created webhook registered on path `/dup`. -/
def whA : Webhook :=
  { id := "aaa", name := "A", path := "/dup", config := cfgA,
    calculator := NewTPSCalculator, createdAt := 0, lastRequest := none }

/-- A registry holding the protected `default` webhook and one custom
webhook. -/
def regA : Registry := [("default", whDefault), ("aaa", whA)]

theorem recordRequest_count (t : TPSCalculator) (now : Nat) :
    (t.RecordRequest now).requestCount = t.requestCount + 1 := by
  unfold TPSCalculator.RecordRequest
  by_cases h : t.isActive = false <;> simp [h]

theorem recordRequest_active (t : TPSCalculator) (now : Nat) :
    (t.RecordRequest now).isActive = true := by
  unfold TPSCalculator.RecordRequest
  by_cases h : t.isActive = false <;> simp_all

theorem recordSeq_count (times : List Nat) (t : TPSCalculator) :
    (recordSeq t times).requestCount = t.requestCount + times.length := by
  induction times generalizing t with
  | nil => simp [recordSeq]
  | cons n rest ih =>
      show (recordSeq (t.RecordRequest n) rest).requestCount = _
      rw [ih, recordRequest_count]
      simp [List.length_cons]
      ring

theorem recordSeq_active (times : List Nat) (t : TPSCalculator)
    (h : t.isActive = true) : (recordSeq t times).isActive = true := by
  induction times generalizing t with
  | nil => simpa [recordSeq] using h
  | cons n rest ih =>
      exact ih (t.RecordRequest n) (recordRequest_active t n)

theorem inv_new : Inv NewTPSCalculator := by
  constructor <;> intro h <;> simp_all [NewTPSCalculator, Inv]

theorem inv_reset (t : TPSCalculator) : Inv t.Reset := by
  constructor <;> intro h <;> simp_all [TPSCalculator.Reset]

theorem recordRequest_eq_inactive (t : TPSCalculator) (now : Nat)
    (h : t.isActive = false) :
    t.RecordRequest now =
      { requestCount := t.requestCount + 1, startTime := now,
        lastTime := now, isActive := true } := by
  simp [TPSCalculator.RecordRequest, h]

theorem recordRequest_eq_active (t : TPSCalculator) (now : Nat)
    (h : t.isActive = true) :
    t.RecordRequest now =
      { requestCount := t.requestCount + 1, startTime := t.startTime,
        lastTime := now, isActive := true } := by
  simp [TPSCalculator.RecordRequest, h]

theorem inv_record (t : TPSCalculator) (now : Nat) (hInv : Inv t)
    (hlast : t.isActive = true → t.lastTime ≤ now) :
    Inv (t.RecordRequest now) ∧ (t.RecordRequest now).lastTime = now := by
  by_cases h : t.isActive = false
  · rcases hInv.1 h with ⟨hc, _, _⟩
    rw [recordRequest_eq_inactive t now h]
    refine ⟨⟨by intro hcon; simp at hcon, ?_⟩, rfl⟩
    intro _
    exact ⟨le_refl now, by simp [hc]⟩
  · have ha : t.isActive = true := by simpa using h
    rcases hInv.2 ha with ⟨hst, hcnt⟩
    rw [recordRequest_eq_active t now ha]
    refine ⟨⟨by intro hcon; simp at hcon, ?_⟩, rfl⟩
    intro _
    refine ⟨le_trans hst (hlast ha), ?_⟩
    show (1 : Int) ≤ t.requestCount + 1
    omega

theorem inv_run_aux (es : List (Nat × CalcEv)) (t : TPSCalculator) (c : Nat)
    (hInv : Inv t) (hlast : t.isActive = true → t.lastTime ≤ c)
    (hmono : timesMono (c :: es.map Prod.fst) = true) :
    Inv (runEvents t es) := by
  induction es generalizing t c with
  | nil => simpa [runEvents] using hInv
  | cons e rest ih =>
      have hmono' : Nat.ble c e.1 = true ∧ timesMono (e.1 :: rest.map Prod.fst) = true := by
        simpa [timesMono] using hmono
      have hce : c ≤ e.1 := Nat.le_of_ble_eq_true hmono'.1
      show Inv (runEvents (stepEv t e) rest)
      match he : e.2 with
      | .reset =>
          apply ih (stepEv t e) e.1
          · simp [stepEv, he, inv_reset]
          · intro hact
            simp [stepEv, he, TPSCalculator.Reset] at hact
          · exact hmono'.2
      | .record =>
          have hrec := inv_record t e.1 hInv
            (fun ha => le_trans (hlast ha) hce)
          apply ih (stepEv t e) e.1
          · simpa [stepEv, he] using hrec.1
          · intro _
            simp [stepEv, he, hrec.2]
          · exact hmono'.2


theorem updateEntry_cons (k : String) (w : Webhook) (rest : Registry)
    (id : String) (f : Webhook → Webhook) :
    updateEntry ((k, w) :: rest) id f =
      (if k = id then (k, f w) else (k, w)) :: updateEntry rest id f := by
  by_cases h : k = id <;> simp [updateEntry, h]

theorem getWebhook_updateEntry_self (ws : Registry) (id : String)
    (f : Webhook → Webhook) :
    getWebhook (updateEntry ws id f) id = (getWebhook ws id).map f := by
  induction ws with
  | nil => rfl
  | cons p rest ih =>
      obtain ⟨k, w⟩ := p
      rw [updateEntry_cons]
      by_cases h : k = id
      · rw [if_pos h]
        simp [getWebhook, h]
      · rw [if_neg h]
        simpa [getWebhook, h] using ih

theorem getWebhook_updateEntry_ne (ws : Registry) (id j : String)
    (f : Webhook → Webhook) (hne : j ≠ id) :
    getWebhook (updateEntry ws id f) j = getWebhook ws j := by
  induction ws with
  | nil => rfl
  | cons p rest ih =>
      obtain ⟨k, w⟩ := p
      rw [updateEntry_cons]
      by_cases h : k = id
      · have hkj : ¬ k = j := by
          intro hkj; exact hne (hkj ▸ h)
        rw [if_pos h]
        simpa [getWebhook, hkj] using ih
      · rw [if_neg h]
        by_cases hkj : k = j
        · simp [getWebhook, hkj]
        · simpa [getWebhook, hkj] using ih

theorem getWebhook_eraseKey_self (ws : Registry) (id : String) :
    getWebhook (eraseKey ws id) id = none := by
  induction ws with
  | nil => rfl
  | cons p rest ih =>
      obtain ⟨k, w⟩ := p
      by_cases h : k = id
      · rw [eraseKey, if_pos h]
        exact ih
      · rw [eraseKey, if_neg h]
        simpa [getWebhook, h] using ih

theorem getWebhook_eraseKey_ne (ws : Registry) (id j : String) (hne : j ≠ id) :
    getWebhook (eraseKey ws id) j = getWebhook ws j := by
  induction ws with
  | nil => rfl
  | cons p rest ih =>
      obtain ⟨k, w⟩ := p
      by_cases h : k = id
      · have hkj : ¬ k = j := by
          intro hkj; exact hne (hkj ▸ h)
        rw [eraseKey, if_pos h]
        simpa [getWebhook, hkj] using ih
      · rw [eraseKey, if_neg h]
        by_cases hkj : k = j
        · simp [getWebhook, hkj]
        · simpa [getWebhook, hkj] using ih

theorem getWebhook_insertW_self (ws : Registry) (id : String) (w : Webhook) :
    getWebhook (insertW ws id w) id = some w := by
  induction ws with
  | nil => simp [insertW, getWebhook]
  | cons p rest ih =>
      obtain ⟨k, v⟩ := p
      by_cases h : k = id
      · simp [insertW, getWebhook, h]
      · simpa [insertW, getWebhook, h] using ih

theorem timesMono_cons_zero (l : List Nat) : timesMono (0 :: l) = timesMono l := by
  cases l with
  | nil => rfl
  | cons b bs => simp [timesMono]

theorem getMetrics_active_total (t : TPSCalculator) (h : t.isActive = true) :
    t.GetMetrics.total_requests = t.requestCount := by
  unfold TPSCalculator.GetMetrics
  simp [h]

/-- C1: `n ≥ 1` sequential `RecordRequest` calls on a fresh calculator,
whatever clock values they observe, followed by `GetMetrics`, report
`total_requests` equal to `n`. -/
theorem record_then_snapshot_count (times : List Nat) (h : 1 ≤ times.length) :
    (recordSeq NewTPSCalculator times).GetMetrics.total_requests =
      (times.length : Int) := by
  match times with
  | n :: rest =>
      have hact : (recordSeq NewTPSCalculator (n :: rest)).isActive = true := by
        show (recordSeq (NewTPSCalculator.RecordRequest n) rest).isActive = true
        exact recordSeq_active rest _ (recordRequest_active _ n)
      rw [getMetrics_active_total _ hact, recordSeq_count]
      simp [NewTPSCalculator]

theorem record_then_snapshot_count_witness :
    1 ≤ ([5, 7, 7] : List Nat).length ∧
      (recordSeq NewTPSCalculator [5, 7, 7]).GetMetrics.total_requests =
        (([5, 7, 7] : List Nat).length : Int) :=
  ⟨by decide, record_then_snapshot_count [5, 7, 7] (by decide)⟩

/-- C2: starting from `NewTPSCalculator`, any sequence of `RecordRequest`
and `Reset` events whose clock readings are non-decreasing ends in a state
satisfying the data-model invariant: inactive implies zero count and unset
timestamps; active implies `startTime ≤ lastTime` and count at least 1. -/
theorem invariant_reachable (es : List (Nat × CalcEv))
    (hmono : timesMono (es.map Prod.fst) = true) :
    Inv (runEvents NewTPSCalculator es) := by
  apply inv_run_aux es NewTPSCalculator 0 inv_new
  · intro hact
    simp [NewTPSCalculator] at hact
  · rw [timesMono_cons_zero]
    exact hmono

theorem invariant_reachable_witness :
    timesMono (([(3, CalcEv.record), (5, CalcEv.record), (5, CalcEv.reset),
        (9, CalcEv.record)] : List (Nat × CalcEv)).map Prod.fst) = true ∧
      Inv (runEvents NewTPSCalculator
        [(3, CalcEv.record), (5, CalcEv.record), (5, CalcEv.reset),
          (9, CalcEv.record)]) :=
  ⟨by decide,
    invariant_reachable
      [(3, CalcEv.record), (5, CalcEv.record), (5, CalcEv.reset),
        (9, CalcEv.record)] (by decide)⟩

theorem getMetrics_active (t : TPSCalculator) (h : t.isActive = true) :
    t.GetMetrics =
      { total_requests := t.requestCount,
        duration_seconds := ((t.lastTime : ℚ) - (t.startTime : ℚ)) / 1000000000,
        tps :=
          if ((t.lastTime : ℚ) - (t.startTime : ℚ)) / 1000000000 > 0 then
            (t.requestCount : ℚ) /
              (((t.lastTime : ℚ) - (t.startTime : ℚ)) / 1000000000)
          else 0,
        start_time := some t.startTime, end_time := some t.lastTime } := by
  unfold TPSCalculator.GetMetrics
  simp [h]

theorem duration_pos_of (t : TPSCalculator) (ha : t.isActive = true)
    (hlt : t.startTime < t.lastTime) : 0 < t.GetMetrics.duration_seconds := by
  rw [getMetrics_active t ha]
  refine div_pos ?_ (by norm_num)
  rw [sub_pos]
  exact_mod_cast hlt

theorem duration_zero_of (t : TPSCalculator) (ha : t.isActive = true)
    (heq : t.lastTime = t.startTime) : t.GetMetrics.duration_seconds = 0 := by
  rw [getMetrics_active t ha]
  show ((t.lastTime : ℚ) - (t.startTime : ℚ)) / 1000000000 = 0
  rw [heq]
  simp

/-- C3: for every calculator state the reported `tps` equals
`total_requests / duration_seconds` when the window is positive, and is
`0` whenever the window is `0` — the simultaneous-arrival burst policy,
with no division by zero. -/
theorem rate_policy (t : TPSCalculator) :
    (t.GetMetrics.duration_seconds > 0 →
      t.GetMetrics.tps =
        (t.GetMetrics.total_requests : ℚ) / t.GetMetrics.duration_seconds) ∧
    (t.GetMetrics.duration_seconds = 0 → t.GetMetrics.tps = 0) := by
  by_cases h : t.isActive = false
  · unfold TPSCalculator.GetMetrics
    simp [h]
  · have ha : t.isActive = true := by simpa using h
    rw [getMetrics_active t ha]
    constructor
    · intro hd
      show (if ((t.lastTime : ℚ) - (t.startTime : ℚ)) / 1000000000 > 0 then _ else _) = _
      rw [if_pos hd]
    · intro hd
      show (if ((t.lastTime : ℚ) - (t.startTime : ℚ)) / 1000000000 > 0 then _ else _)
        = (0 : ℚ)
      have hd' : ((t.lastTime : ℚ) - (t.startTime : ℚ)) / 1000000000 = 0 := hd
      rw [hd']
      simp

theorem rate_policy_witness :
    (calcSpread.GetMetrics.duration_seconds > 0 ∧
      calcSpread.GetMetrics.tps =
        (calcSpread.GetMetrics.total_requests : ℚ) /
          calcSpread.GetMetrics.duration_seconds) ∧
    (calcBurst.GetMetrics.duration_seconds = 0 ∧
      calcBurst.GetMetrics.total_requests = 5 ∧ calcBurst.GetMetrics.tps = 0) :=
  have hpos : calcSpread.GetMetrics.duration_seconds > 0 :=
    duration_pos_of calcSpread rfl (by decide)
  have hzero : calcBurst.GetMetrics.duration_seconds = 0 :=
    duration_zero_of calcBurst rfl rfl
  ⟨⟨hpos, (rate_policy calcSpread).1 hpos⟩,
    ⟨hzero, rfl, (rate_policy calcBurst).2 hzero⟩⟩

/-- C4: `GetMetrics` on a never-recorded calculator yields all-zero
metrics with both timestamps absent, and `Reset` followed by `GetMetrics`
yields exactly that fresh-state result from every state. -/
theorem fresh_snapshot_and_reset :
    NewTPSCalculator.GetMetrics =
      { total_requests := 0, duration_seconds := 0, tps := 0,
        start_time := none, end_time := none } ∧
    ∀ t : TPSCalculator, t.Reset.GetMetrics = NewTPSCalculator.GetMetrics :=
  ⟨rfl, fun _ => rfl⟩

/-- C5: the hot path.  When `id` resolves, `handleWebhookRequest` answers
with exactly that endpoint's current config, and the registry afterwards
holds that endpoint with its calculator advanced by one `RecordRequest`
and `lastRequest` stamped, every other endpoint unchanged; when `id` does
not resolve it answers not-found and leaves the registry untouched. -/
theorem hot_path_spec (ws : Registry) (id : String) (now : Nat) :
    (∀ w : Webhook, getWebhook ws id = some w →
      (handleWebhookRequest ws id now).2 = some w.config ∧
      getWebhook (handleWebhookRequest ws id now).1 id =
        some (touchWebhook w now) ∧
      ∀ j : String, j ≠ id →
        getWebhook (handleWebhookRequest ws id now).1 j = getWebhook ws j) ∧
    (getWebhook ws id = none → handleWebhookRequest ws id now = (ws, none)) := by
  constructor
  · intro w hw
    refine ⟨?_, ?_, ?_⟩
    · simp [handleWebhookRequest, hw]
    · simp [handleWebhookRequest, hw, getWebhook_updateEntry_self]
    · intro j hj
      simp [handleWebhookRequest, hw, getWebhook_updateEntry_ne ws id j _ hj]
  · intro hnone
    simp [handleWebhookRequest, hnone]

theorem hot_path_spec_witness :
    (handleWebhookRequest regA "aaa" 7).2 = some whA.config ∧
    getWebhook (handleWebhookRequest regA "aaa" 7).1 "aaa" =
      some (touchWebhook whA 7) ∧
    getWebhook (handleWebhookRequest regA "aaa" 7).1 "default" =
      getWebhook regA "default" ∧
    handleWebhookRequest regA "zzz" 7 = (regA, none) :=
  have h1 := (hot_path_spec regA "aaa" 7).1 whA (by decide)
  ⟨h1.1, h1.2.1, h1.2.2 "default" (by decide),
    (hot_path_spec regA "zzz" 7).2 (by decide)⟩

/-- C9: `deleteWebhook` returns `true` exactly when the id is present and
not protected; whenever it returns `false` the registry is exactly
unchanged; whenever it returns `true` the entry is gone and every other
entry is untouched. -/
theorem delete_spec (ws : Registry) (id : String) :
    ((deleteWebhook ws id).2 = true ↔
      (getWebhook ws id).isSome = true ∧ ¬ protectedId id) ∧
    ((deleteWebhook ws id).2 = false → (deleteWebhook ws id).1 = ws) ∧
    ((deleteWebhook ws id).2 = true →
      getWebhook (deleteWebhook ws id).1 id = none) ∧
    (∀ j : String, j ≠ id →
      getWebhook (deleteWebhook ws id).1 j = getWebhook ws j) := by
  unfold deleteWebhook
  by_cases hp : protectedId id
  · simp [hp]
  · cases hlook : getWebhook ws id with
    | none => simp [hp, hlook]
    | some w =>
        refine ⟨?_, ?_, ?_, ?_⟩
        · simp [hp, hlook]
        · simp [hp, hlook]
        · intro _
          simp [hp, hlook, getWebhook_eraseKey_self]
        · intro j hj
          simp [hp, hlook, getWebhook_eraseKey_ne ws id j hj]

theorem delete_spec_witness :
    (deleteWebhook regA "aaa").2 = true ∧
    getWebhook (deleteWebhook regA "aaa").1 "aaa" = none ∧
    getWebhook (deleteWebhook regA "aaa").1 "default" =
      getWebhook regA "default" ∧
    (deleteWebhook regA "default").1 = regA ∧
    (deleteWebhook regA "zzz").1 = regA :=
  have hA := delete_spec regA "aaa"
  have htrue : (deleteWebhook regA "aaa").2 = true :=
    hA.1.mpr ⟨by decide, by decide⟩
  ⟨htrue, hA.2.2.1 htrue, hA.2.2.2 "default" (by decide),
    (delete_spec regA "default").2.1 (by decide),
    (delete_spec regA "zzz").2.1 (by decide)⟩

/-- C10: the protection check precedes the existence check, so deleting a
protected identifier returns `false` and changes nothing even when that
identifier is not present in the registry at all. -/
theorem delete_protected_before_lookup (ws : Registry) (id : String)
    (hp : protectedId id) (_habs : getWebhook ws id = none) :
    deleteWebhook ws id = (ws, false) := by
  unfold deleteWebhook
  rw [if_pos hp]

theorem delete_protected_before_lookup_witness :
    protectedId "fast" ∧ getWebhook ([] : Registry) "fast" = none ∧
      deleteWebhook ([] : Registry) "fast" = ([], false) :=
  ⟨by decide, rfl, delete_protected_before_lookup [] "fast" (by decide) rfl⟩

/-- C6 counterexample: a PUT body that supplied only `status_code` (every
other field at its decoded zero value) does NOT leave all unsupplied
fields at their prior values — `timeout` is overwritten with `0` (the
`>= 0` sentinel always fires) and `enableLogging` is overwritten with
`false` (no sentinel at all). -/
theorem put_merge_not_field_level_cex :
    (putMergeConfig cfgA putOnlyStatusCfg).statusCode = 201 ∧
    (putMergeConfig cfgA putOnlyStatusCfg).timeout ≠ cfgA.timeout ∧
    (putMergeConfig cfgA putOnlyStatusCfg).enableLogging ≠ cfgA.enableLogging := by
  decide

/-- C6 amended: the PATCH handler is a true field-level merge — every
`none` (absent pointer) field retains its prior value, and a supplied
zero value is distinguishable from absence.  The PUT handler retains
`statusCode`/`contentType`/`responseBody`/`headers` under their zero-value
sentinels but unconditionally overwrites `enableLogging` and overwrites
`timeout` whenever the supplied value is non-negative (which includes the
decoded zero of an absent field). -/
theorem update_merge_semantics :
    (∀ (old : WebhookConfig) (p : ConfigPatch),
      (p.statusCode = none →
        (patchMergeConfig old p).statusCode = old.statusCode) ∧
      (p.contentType = none →
        (patchMergeConfig old p).contentType = old.contentType) ∧
      (p.responseBody = none →
        (patchMergeConfig old p).responseBody = old.responseBody) ∧
      (p.timeout = none → (patchMergeConfig old p).timeout = old.timeout) ∧
      (p.headers = none → (patchMergeConfig old p).headers = old.headers) ∧
      (p.enableLogging = none →
        (patchMergeConfig old p).enableLogging = old.enableLogging)) ∧
    (∀ old u : WebhookConfig,
      (u.statusCode = 0 → (putMergeConfig old u).statusCode = old.statusCode) ∧
      (u.contentType = "" →
        (putMergeConfig old u).contentType = old.contentType) ∧
      (u.responseBody = "" →
        (putMergeConfig old u).responseBody = old.responseBody) ∧
      (u.headers = none → (putMergeConfig old u).headers = old.headers) ∧
      (putMergeConfig old u).enableLogging = u.enableLogging ∧
      (0 ≤ u.timeout → (putMergeConfig old u).timeout = u.timeout)) := by
  constructor
  · intro old p
    refine ⟨?_, ?_, ?_, ?_, ?_, ?_⟩ <;> intro h <;> simp [patchMergeConfig, h]
  · intro old u
    refine ⟨?_, ?_, ?_, ?_, ?_, ?_⟩
    · intro h; simp [putMergeConfig, h]
    · intro h; simp [putMergeConfig, h]
    · intro h; simp [putMergeConfig, h]
    · intro h; simp [putMergeConfig, h]
    · simp [putMergeConfig]
    · intro h; simp [putMergeConfig, h]

theorem update_merge_semantics_witness :
    (patchMergeConfig cfgA patchOnlyStatus).statusCode = 201 ∧
    (patchMergeConfig cfgA patchOnlyStatus).contentType = cfgA.contentType ∧
    (patchMergeConfig cfgA patchOnlyStatus).timeout = cfgA.timeout ∧
    (patchMergeConfig cfgA patchOnlyStatus).enableLogging = cfgA.enableLogging ∧
    (putMergeConfig cfgA putOnlyStatusCfg).contentType = cfgA.contentType ∧
    (putMergeConfig cfgA putOnlyStatusCfg).timeout = putOnlyStatusCfg.timeout :=
  have hp := update_merge_semantics.1 cfgA patchOnlyStatus
  have hu := update_merge_semantics.2 cfgA putOnlyStatusCfg
  ⟨rfl, hp.2.1 rfl, hp.2.2.2.1 rfl, hp.2.2.2.2.2 rfl,
    hu.2.1 rfl, hu.2.2.2.2.2 (by decide)⟩

/-- C7 counterexample: a PUT with a path change on the protected id
`default` does not fail at all — the handler answers success (no
`Protected` error exists in the code), silently keeping the stored path. -/
theorem protected_path_update_cex :
    updIsError (putWebhook regA "default" putPathChange).2 = false ∧
    updResultPath (putWebhook regA "default" putPathChange).2 =
      some "/webhook" ∧
    (getWebhook (putWebhook regA "default" putPathChange).1 "default").map
      Webhook.path = some "/webhook" := by
  decide

/-- C7 amended: for a protected id, both update handlers silently ignore
any requested path change: they report success (never an error), echo the
webhook with its path unchanged, and leave the stored path unchanged. -/
theorem protected_path_update_ignored (ws : Registry) (id : String)
    (req : PutRequest) (preq : PatchRequest) (w : Webhook)
    (hp : protectedId id) (hw : getWebhook ws id = some w) :
    (updIsError (putWebhook ws id req).2 = false ∧
      updResultPath (putWebhook ws id req).2 = some w.path ∧
      (getWebhook (putWebhook ws id req).1 id).map Webhook.path =
        some w.path) ∧
    (updIsError (patchWebhook ws id preq).2 = false ∧
      updResultPath (patchWebhook ws id preq).2 = some w.path ∧
      (getWebhook (patchWebhook ws id preq).1 id).map Webhook.path =
        some w.path) := by
  constructor
  · by_cases hn : req.name = "" <;>
      simp [putWebhook, hw, hp, hn, updIsError, updResultPath,
        getWebhook_updateEntry_self]
  · rcases preq with ⟨pn, pp, pc⟩
    cases pn <;> cases pp <;> cases pc <;>
      simp [patchWebhook, hw, hp, updIsError, updResultPath,
        getWebhook_updateEntry_self]

theorem protected_path_update_ignored_witness :
    (updIsError (putWebhook regA "default" putPathChange).2 = false ∧
      updResultPath (putWebhook regA "default" putPathChange).2 =
        some whDefault.path ∧
      (getWebhook (putWebhook regA "default" putPathChange).1 "default").map
        Webhook.path = some whDefault.path) ∧
    (updIsError (patchWebhook regA "default" patchPathChange).2 = false ∧
      updResultPath (patchWebhook regA "default" patchPathChange).2 =
        some whDefault.path ∧
      (getWebhook (patchWebhook regA "default" patchPathChange).1
        "default").map Webhook.path = some whDefault.path) :=
  protected_path_update_ignored regA "default" putPathChange patchPathChange
    whDefault (Or.inl rfl) (by decide)

/-- C8 counterexample: with `/dup` already registered to webhook `aaa`,
`createWebhook` with the same (already normalized) path succeeds and
inserts the new endpoint anyway — there is no `DuplicatePath` failure in
the code. -/
theorem create_duplicate_path_inserts_cex :
    (getWebhook regA "aaa").map Webhook.path = some "/dup" ∧
    (createWebhook regA "bbb" "B" "/dup" cfgA 3).2.path = "/dup" ∧
    getWebhook (createWebhook regA "bbb" "B" "/dup" cfgA 3).1 "bbb" =
      some (createWebhook regA "bbb" "B" "/dup" cfgA 3).2 := by
  decide

/-- C8 amended: `createWebhook` performs no duplicate-path check: for
every registry state — including any state in which the normalized path
already belongs to another registered endpoint — it constructs the
endpoint, inserts it, and returns it. -/
theorem create_always_inserts (ws : Registry) (id name path : String)
    (config : WebhookConfig) (now : Nat) :
    getWebhook (createWebhook ws id name path config now).1 id =
      some (createWebhook ws id name path config now).2 := by
  unfold createWebhook
  exact getWebhook_insertW_self ws id _

end TPS
